import Mathlib

/-!
Verification of the Blackjack round engine: a shallow embedding of the
repository's Python sources (`src/blackjack.py`, `src/player.py`,
`src/deck.py`, `src/blackjack/utils.py`) together with proofs of the
specification's claims about them.

Modelling conventions:
* Card ranks are the thirteen values of the `RANKS` tuples of the sources;
  suits are the four suits.  Python represents both as strings drawn from
  fixed tuples; we use inductive types with one constructor per string.
* Python `int` is modelled by `Int` (money) or `Nat` (totals, counts).
  Python's floor division `//` on ints is `Int.fdiv`.
* `random.shuffle` is modelled by an explicit shuffling function
  (`Shuffler`); theorems that need it assume the function permutes its
  input, which is the defining property of a shuffle.
* Python exceptions are modelled with `Except`: a raising operation on a
  mutable object returns the pair of an `Except` result and the state as
  mutated up to the raise point (the sources validate before mutating).
-/

/-- The four suits, as in `SUITS` of `src/blackjack.py`. -/
inductive Suit where
  | Hearts | Diamonds | Clubs | Spades
deriving DecidableEq, Repr

/-- The thirteen ranks, as in `RANKS` of `src/blackjack.py`
(`"2" .. "10", "J", "Q", "K", "A"`). -/
inductive Rank where
  | r2 | r3 | r4 | r5 | r6 | r7 | r8 | r9 | r10 | J | Q | K | A
deriving DecidableEq, Repr

/-- `rank_value` of `src/blackjack.py` (equally the `RANK_VALUES` table of
`src/blackjack/constants.py`): J/Q/K count 10, an Ace nominally 11, number
cards their number. -/
def rank_value : Rank → Nat
  | .r2 => 2
  | .r3 => 3
  | .r4 => 4
  | .r5 => 5
  | .r6 => 6
  | .r7 => 7
  | .r8 => 8
  | .r9 => 9
  | .r10 => 10
  | .J => 10
  | .Q => 10
  | .K => 10
  | .A => 11

/-- `Card` of `src/blackjack.py`: an immutable rank/suit pair. -/
structure Card where
  rank : Rank
  suit : Suit
deriving DecidableEq, Repr

/-- `Card.value` of `src/blackjack.py`. -/
def Card.value (c : Card) : Nat := rank_value c.rank

/-- The ace-demotion loop shared by `Hand.value` (`src/blackjack.py`),
`Hand.total` (`src/blackjack/deck.py`) and `best_total`
(`src/blackjack/utils.py`):
`while total > 21 and aces > 0: total -= 10; aces -= 1`. -/
def demote_aces (total : Nat) : Nat → Nat
  | 0 => total
  | a + 1 => if 21 < total then demote_aces (total - 10) a else total

/-- `Hand.value` of `src/blackjack.py`: sum the nominal card values
(aces as 11), then demote aces while the total exceeds 21. -/
def hand_value (cards : List Card) : Nat :=
  demote_aces (cards.map Card.value).sum (cards.countP (fun c => c.rank = Rank.A))

/-- `Hand.is_blackjack` of `src/blackjack.py`: exactly two cards totalling 21. -/
def hand_is_blackjack (cards : List Card) : Bool :=
  cards.length == 2 && hand_value cards == 21

/-- `Hand.is_bust` of `src/blackjack.py`: total exceeding 21. -/
def hand_is_bust (cards : List Card) : Bool :=
  21 < hand_value cards

/-- The demotion loop of `best_total` in `src/blackjack/utils.py`, which also
tracks how many aces are still counted as 11 (`aces_as_eleven`). -/
def demote_aces_soft (total : Nat) : Nat → Nat × Nat
  | 0 => (total, 0)
  | a + 1 => if 21 < total then demote_aces_soft (total - 10) a else (total, a + 1)

/-- `best_total` of `src/blackjack/utils.py` on a list of ranks: the pair of
the best achievable total and the softness flag (`aces_as_eleven > 0`). -/
def best_total (ranks : List Rank) : Nat × Bool :=
  let total := (ranks.map rank_value).sum
  let aces := ranks.countP (fun r => r = Rank.A)
  let p := demote_aces_soft total aces
  (p.1, decide (0 < p.2))

/-- The sum of a hand with every ace counted as 1 — the spec's
"lowest possible sum with every Ace = 1". -/
def low_sum (cards : List Card) : Nat :=
  (cards.map (fun c => if c.rank = Rank.A then 1 else c.value)).sum

-- ---------------------------------------------------------------------------
-- Lemmas about the ace-demotion loop
-- ---------------------------------------------------------------------------

/-- The demotion loop performs some number `k ≤ aces` of 10-subtractions,
each taken only while the running total still exceeded 21, and demotes every
ace when the result still exceeds 21. -/
lemma demote_aces_spec (a : Nat) : ∀ t : Nat, ∃ k : Nat,
    k ≤ a ∧ demote_aces t a = t - 10 * k ∧
    (∀ j : Nat, j < k → 21 < t - 10 * j) ∧
    (21 < demote_aces t a → k = a) := by
  induction a with
  | zero =>
    intro t
    exact ⟨0, le_refl 0, by simp [demote_aces], by omega, fun _ => rfl⟩
  | succ a ih =>
    intro t
    by_cases h : 21 < t
    · obtain ⟨k, hk, heq, hgt, hbust⟩ := ih (t - 10)
      refine ⟨k + 1, by omega, ?_, ?_, ?_⟩
      · simp only [demote_aces, if_pos h]
        omega
      · intro j hj
        cases j with
        | zero => simpa using h
        | succ j' =>
          have := hgt j' (by omega)
          omega
      · intro hb
        simp only [demote_aces, if_pos h] at hb
        have := hbust hb
        omega
    · refine ⟨0, Nat.zero_le _, ?_, by omega, ?_⟩
      · simp [demote_aces, h]
      · intro hb
        simp only [demote_aces, if_neg h] at hb
        omega

/-- The soft-tracking demotion loop computes the same total as the plain one. -/
lemma demote_aces_soft_fst (a : Nat) : ∀ t : Nat,
    (demote_aces_soft t a).1 = demote_aces t a := by
  induction a with
  | zero => intro t; rfl
  | succ a ih =>
    intro t
    by_cases h : 21 < t
    · simp [demote_aces_soft, demote_aces, h, ih]
    · simp [demote_aces_soft, demote_aces, h]

/-- Every card is nominally worth at least 2 and at most 11. -/
lemma card_value_bounds (c : Card) : 2 ≤ c.value ∧ c.value ≤ 11 := by
  cases h : c.rank <;> simp [Card.value, rank_value, h]

/-- Only an ace is nominally worth 11. -/
lemma card_value_eq_eleven (c : Card) : c.value = 11 ↔ c.rank = Rank.A := by
  cases h : c.rank <;> simp [Card.value, rank_value, h]

/-- The all-aces-as-1 sum equals the nominal sum minus 10 per ace. -/
lemma low_sum_eq (cards : List Card) :
    low_sum cards =
      (cards.map Card.value).sum - 10 * cards.countP (fun c => c.rank = Rank.A) := by
  induction cards with
  | nil => simp [low_sum]
  | cons c cs ih =>
    have hb := card_value_bounds c
    have hc : ∀ l : List Card,
        10 * l.countP (fun c => c.rank = Rank.A) ≤ (l.map Card.value).sum := by
      intro l
      induction l with
      | nil => simp
      | cons x xs ihx =>
        by_cases hx : x.rank = Rank.A
        · have : x.value = 11 := (card_value_eq_eleven x).mpr hx
          simp only [List.countP_cons, List.map_cons, List.sum_cons, hx]
          simp only [decide_eq_true_eq, if_pos trivial]
          omega
        · have := (card_value_bounds x).1
          simp only [List.countP_cons, List.map_cons, List.sum_cons]
          rw [if_neg (by simpa using hx)]
          omega
    by_cases hA : c.rank = Rank.A
    · have hv : c.value = 11 := (card_value_eq_eleven c).mpr hA
      have := hc cs
      simp only [low_sum, List.map_cons, List.sum_cons, List.countP_cons, hA] at *
      simp only [decide_eq_true_eq, if_pos trivial]
      omega
    · have := hc cs
      simp only [low_sum, List.map_cons, List.sum_cons, List.countP_cons] at *
      rw [if_neg hA, if_neg (by simpa using hA)]
      omega

/-- C1.  For every hand, `hand_value` (= `Hand.value` / `Hand.total`, and
equally the total of `best_total`) lies between the all-aces-as-1 sum and the
all-aces-as-11 sum; when some ace choice stays within 21 it is the maximum
total not exceeding 21 over all choices of counting each ace as 1 or 11
(the achievable totals being the nominal sum minus 10 per demoted ace), and
otherwise it is the unique minimum, the all-aces-as-1 sum. -/
theorem c1_best_total_spec (cards : List Card) :
    (best_total (cards.map Card.rank)).1 = hand_value cards ∧
    low_sum cards ≤ hand_value cards ∧
    hand_value cards ≤ (cards.map Card.value).sum ∧
    (low_sum cards ≤ 21 →
      hand_value cards ≤ 21 ∧
      (∃ k ≤ cards.countP (fun c => c.rank = Rank.A),
        hand_value cards = (cards.map Card.value).sum - 10 * k) ∧
      (∀ j ≤ cards.countP (fun c => c.rank = Rank.A),
        (cards.map Card.value).sum - 10 * j ≤ 21 →
        (cards.map Card.value).sum - 10 * j ≤ hand_value cards)) ∧
    (21 < low_sum cards → hand_value cards = low_sum cards) := by
  set t := (cards.map Card.value).sum with ht
  set a := cards.countP (fun c => c.rank = Rank.A) with ha
  have hmap : (cards.map Card.rank).map rank_value = cards.map Card.value := by
    simp [List.map_map, Card.value, Function.comp]
  have hcnt : (cards.map Card.rank).countP (fun r => r = Rank.A) = a := by
    rw [ha, List.countP_map]
    rfl
  have hlow : low_sum cards = t - 10 * a := low_sum_eq cards
  obtain ⟨k, hk, heq, hgt, hbust⟩ := demote_aces_spec a t
  have hv : hand_value cards = t - 10 * k := by
    simpa [hand_value, ← ht, ← ha] using heq
  refine ⟨?_, ?_, ?_, ?_, ?_⟩
  · simp only [best_total, hmap, hcnt, demote_aces_soft_fst, hand_value, ← ht, ← ha]
  · rw [hlow, hv]; omega
  · rw [hv]; omega
  · intro hle
    rw [hlow] at hle
    have hv21 : hand_value cards ≤ 21 := by
      by_contra hgt21
      push_neg at hgt21
      have hka : k = a := by
        apply hbust
        simpa [hand_value, ← ht, ← ha, heq] using (by omega : 21 < t - 10 * k)
      rw [hv, hka] at hgt21
      omega
    refine ⟨hv21, ⟨k, hk, hv⟩, ?_⟩
    intro j hj hj21
    by_cases hjk : j < k
    · have := hgt j hjk
      omega
    · rw [hv]
      omega
  · intro hgt21
    rw [hlow] at hgt21
    have hka : 21 < t - 10 * k → k = a := by
      intro h
      apply hbust
      rw [hv] at *
      omega
    rw [hv, hlow]
    by_cases h : 21 < t - 10 * k
    · rw [hka h]
    · omega

-- ---------------------------------------------------------------------------
-- Player / ledger (src/player.py)
-- ---------------------------------------------------------------------------

/-- The mutable state of `Player` in `src/player.py`: chips in integer
cents, bet limits, lifetime statistics, the id counter and the active-bet
dictionary (insertion-ordered association list, as a Python dict). -/
structure PlayerState where
  chips_cents : Int
  min_bet_cents : Int
  max_bet_cents : Option Int
  hands_played : Nat
  wins : Nat
  losses : Nat
  pushes : Nat
  net_cents : Int
  next_bet_id : Nat
  active_bets : List (Nat × Int)
deriving DecidableEq, Repr

/-- Python-dict assignment `d[k] = v`: replace the value of an existing key
in place, else append the new key at the end (insertion order). -/
def dict_insert : List (Nat × Int) → Nat → Int → List (Nat × Int)
  | [], k, v => [(k, v)]
  | (k', v') :: rest, k, v =>
      if k' = k then (k, v) :: rest else (k', v') :: dict_insert rest k v

/-- Python-dict lookup `d.get(k)`. -/
def dict_lookup : List (Nat × Int) → Nat → Option Int
  | [], _ => none
  | (k', v') :: rest, k => if k' = k then some v' else dict_lookup rest k

/-- Removal of a key, the state effect of Python-dict `d.pop(k)`. -/
def dict_erase : List (Nat × Int) → Nat → List (Nat × Int)
  | [], _ => []
  | (k', v') :: rest, k => if k' = k then rest else (k', v') :: dict_erase rest k

/-- The maximum-bet test of `Player._validate_bet_amount`: true when a
maximum is configured and the amount exceeds it. -/
def over_max_bet (s : PlayerState) (amount : Int) : Bool :=
  match s.max_bet_cents with
  | some m => decide (m < amount)
  | none => false

/-- `Player._validate_bet_amount` of `src/player.py`: rejects non-positive
amounts, amounts below the minimum or above the configured maximum bet, and
amounts exceeding the chip balance, in that order. -/
def validate_bet_amount (s : PlayerState) (amount : Int) : Except String Unit :=
  if amount ≤ 0 then .error "bet amount must be greater than zero"
  else if amount < s.min_bet_cents then .error "minimum bet"
  else if over_max_bet s amount then .error "maximum bet"
  else if s.chips_cents < amount then .error "insufficient chips for this bet"
  else .ok ()

/-- `Player.can_bet` of `src/player.py`. -/
def can_bet (s : PlayerState) (amount : Int) : Bool :=
  match validate_bet_amount s amount with
  | .ok _ => true
  | .error _ => false

/-- `Player.place_bet` of `src/player.py`: validate, debit the chips, issue
a fresh bet id and record the bet.  The state component of the result is the
player state as mutated up to the point of return or raise (the validation
raises before any mutation). -/
def place_bet (s : PlayerState) (amount : Int) : Except String Nat × PlayerState :=
  match validate_bet_amount s amount with
  | .error e => (.error e, s)
  | .ok _ =>
      let bet_id := s.next_bet_id
      (.ok bet_id,
        { s with
          chips_cents := s.chips_cents - amount
          next_bet_id := s.next_bet_id + 1
          active_bets := dict_insert s.active_bets bet_id amount })

/-- `Player._pop_bet` of `src/player.py`: remove and return an active bet,
raising `KeyError` on an unknown bet id (the dict is unchanged then). -/
def pop_bet (s : PlayerState) (bet_id : Nat) : Except String (Int × PlayerState) :=
  match dict_lookup s.active_bets bet_id with
  | none => .error "unknown bet_id"
  | some bet => .ok (bet, { s with active_bets := dict_erase s.active_bets bet_id })

/-- `Player.settle_win` of `src/player.py` with payout ratio `num/den`:
pop the bet, floor the payout to the cent (`//` on Python ints is floor
division, `Int.fdiv`), credit bet plus payout and update the statistics. -/
def settle_win (s : PlayerState) (bet_id : Nat) (num den : Int) :
    Except String Int × PlayerState :=
  match pop_bet s bet_id with
  | .error e => (.error e, s)
  | .ok (bet, s1) =>
      let payout := Int.fdiv (bet * num) den
      let credit := bet + payout
      (.ok credit,
        { s1 with
          chips_cents := s1.chips_cents + credit
          hands_played := s1.hands_played + 1
          wins := s1.wins + 1
          net_cents := s1.net_cents + payout })

/-- `Player.settle_blackjack` of `src/player.py`: a win at ratio
`Fraction(3, 2)`. -/
def settle_blackjack (s : PlayerState) (bet_id : Nat) :
    Except String Int × PlayerState :=
  settle_win s bet_id 3 2

/-- `Player.settle_push` of `src/player.py`: return the original bet only. -/
def settle_push (s : PlayerState) (bet_id : Nat) :
    Except String Int × PlayerState :=
  match pop_bet s bet_id with
  | .error e => (.error e, s)
  | .ok (bet, s1) =>
      (.ok bet,
        { s1 with
          chips_cents := s1.chips_cents + bet
          hands_played := s1.hands_played + 1
          pushes := s1.pushes + 1 })

/-- `Player.settle_loss` of `src/player.py`: the bet stays with the house. -/
def settle_loss (s : PlayerState) (bet_id : Nat) :
    Except String Int × PlayerState :=
  match pop_bet s bet_id with
  | .error e => (.error e, s)
  | .ok (bet, s1) =>
      (.ok 0,
        { s1 with
          hands_played := s1.hands_played + 1
          losses := s1.losses + 1
          net_cents := s1.net_cents - bet })

/-- `Player.cancel_bet` of `src/player.py`: pop the bet and return the funds
to the chips. -/
def cancel_bet (s : PlayerState) (bet_id : Nat) :
    Except String Int × PlayerState :=
  match pop_bet s bet_id with
  | .error e => (.error e, s)
  | .ok (bet, s1) =>
      (.ok bet, { s1 with chips_cents := s1.chips_cents + bet })

-- ---------------------------------------------------------------------------
-- Dictionary lemmas
-- ---------------------------------------------------------------------------

/-- Looking up the key just inserted finds the inserted value. -/
lemma dict_lookup_insert (l : List (Nat × Int)) (k : Nat) (v : Int) :
    dict_lookup (dict_insert l k v) k = some v := by
  induction l with
  | nil => simp [dict_insert, dict_lookup]
  | cons p rest ih =>
    by_cases h : p.1 = k
    · simp [dict_insert, dict_lookup, h]
    · simp [dict_insert, dict_lookup, h, ih]

/-- Inserting a fresh key appends it at the end (insertion order). -/
lemma dict_insert_fresh (l : List (Nat × Int)) (k : Nat) (v : Int)
    (h : ∀ p ∈ l, p.1 ≠ k) : dict_insert l k v = l ++ [(k, v)] := by
  induction l with
  | nil => simp [dict_insert]
  | cons p rest ih =>
    have hp : p.1 ≠ k := h p (by simp)
    simp only [dict_insert, if_neg hp, List.cons_append, List.cons.injEq, true_and]
    exact ih (fun q hq => h q (by simp [hq]))

/-- Looking up a fresh key appended at the end skips the prefix. -/
lemma dict_lookup_append_fresh (l : List (Nat × Int)) (k : Nat) (v : Int)
    (h : ∀ p ∈ l, p.1 ≠ k) : dict_lookup (l ++ [(k, v)]) k = some v := by
  induction l with
  | nil => simp [dict_lookup]
  | cons p rest ih =>
    have hp : p.1 ≠ k := h p (by simp)
    simp only [List.cons_append, dict_lookup, if_neg hp]
    exact ih (fun q hq => h q (by simp [hq]))

/-- Erasing a fresh key appended at the end restores the original list. -/
lemma dict_erase_append_fresh (l : List (Nat × Int)) (k : Nat) (v : Int)
    (h : ∀ p ∈ l, p.1 ≠ k) : dict_erase (l ++ [(k, v)]) k = l := by
  induction l with
  | nil => simp [dict_erase]
  | cons p rest ih =>
    have hp : p.1 ≠ k := h p (by simp)
    simp only [List.cons_append, dict_erase, if_neg hp, List.cons.injEq, true_and]
    exact ih (fun q hq => h q (by simp [hq]))

/-- A key absent from the list looks up to `none`. -/
lemma dict_lookup_not_mem (l : List (Nat × Int)) (k : Nat)
    (h : k ∉ l.map Prod.fst) : dict_lookup l k = none := by
  induction l with
  | nil => rfl
  | cons p rest ih =>
    simp only [List.map_cons, List.mem_cons, not_or] at h
    have hne : ¬ p.1 = k := fun he => h.1 he.symm
    simp only [dict_lookup, if_neg hne]
    exact ih h.2

/-- When keys are unrepeated, a key is gone after erasing it. -/
lemma dict_lookup_erase (l : List (Nat × Int)) (k : Nat)
    (h : (l.map Prod.fst).Nodup) : dict_lookup (dict_erase l k) k = none := by
  induction l with
  | nil => simp [dict_erase, dict_lookup]
  | cons p rest ih =>
    rw [List.map_cons, List.nodup_cons] at h
    by_cases hp : p.1 = k
    · simp only [dict_erase, if_pos hp]
      exact dict_lookup_not_mem rest k (hp ▸ h.1)
    · simp only [dict_erase, if_neg hp, dict_lookup, if_neg hp]
      exact ih h.2

/-- `Except.isOk` as a plain definition over the result type used here. -/
def exc_ok {α : Type} : Except String α → Bool
  | .ok _ => true
  | .error _ => false

/-- A successful `can_bet` means the validation returned `ok`. -/
lemma can_bet_ok {s : PlayerState} {a : Int} (h : can_bet s a = true) :
    validate_bet_amount s a = .ok () := by
  unfold can_bet at h
  cases hv : validate_bet_amount s a with
  | ok u => cases u; rfl
  | error e => rw [hv] at h; simp at h

/-- The state produced by a validated `place_bet`. -/
lemma place_bet_ok {s : PlayerState} {a : Int} (h : can_bet s a = true) :
    place_bet s a =
      (.ok s.next_bet_id,
        { s with
          chips_cents := s.chips_cents - a
          next_bet_id := s.next_bet_id + 1
          active_bets := dict_insert s.active_bets s.next_bet_id a }) := by
  simp [place_bet, can_bet_ok h]

/-- C2 (amended).  For a validated bet `b` placed and then settled once:
placing debits exactly `b`; a blackjack settlement leaves the balance exactly
`⌊3·b/2⌋` above the pre-bet balance (the 3:2 profit component is floored to
the cent by Python's `//`, not rounded half-up, and the total credit relative
to the post-debit balance is `b + ⌊3·b/2⌋`); a push settlement restores the
pre-bet balance exactly; a loss settlement leaves the balance exactly `b`
below the pre-bet balance; all arithmetic is exact integer cents. -/
theorem c2_settlement_deltas (s : PlayerState) (a : Int) (h : can_bet s a = true) :
    (place_bet s a).1 = .ok s.next_bet_id ∧
    ((place_bet s a).2).chips_cents = s.chips_cents - a ∧
    (settle_blackjack (place_bet s a).2 s.next_bet_id).2.chips_cents
        = s.chips_cents + Int.fdiv (a * 3) 2 ∧
    (settle_push (place_bet s a).2 s.next_bet_id).2.chips_cents = s.chips_cents ∧
    (settle_loss (place_bet s a).2 s.next_bet_id).2.chips_cents = s.chips_cents - a := by
  rw [place_bet_ok h]
  have hlk := dict_lookup_insert s.active_bets s.next_bet_id a
  refine ⟨rfl, rfl, ?_, ?_, ?_⟩
  · simp only [settle_blackjack, settle_win, pop_bet, hlk]
    generalize Int.fdiv (a * 3) 2 = p
    omega
  · simp only [settle_push, pop_bet, hlk]
    omega
  · simp only [settle_loss, pop_bet, hlk]

/-- A sample player: 1000 cents, minimum bet 1 cent, no maximum, fresh stats. -/
def sample_player : PlayerState :=
  { chips_cents := 1000, min_bet_cents := 1, max_bet_cents := none,
    hands_played := 0, wins := 0, losses := 0, pushes := 0, net_cents := 0,
    next_bet_id := 1, active_bets := [] }

/-- C2 witness: placing and blackjack-settling a 101-cent bet from a
1000-cent balance behaves exactly as `c2_settlement_deltas` states. -/
theorem c2_settlement_deltas_witness :
    (place_bet sample_player 101).1 = .ok sample_player.next_bet_id ∧
    ((place_bet sample_player 101).2).chips_cents = sample_player.chips_cents - 101 ∧
    (settle_blackjack (place_bet sample_player 101).2
        sample_player.next_bet_id).2.chips_cents
      = sample_player.chips_cents + Int.fdiv (101 * 3) 2 ∧
    (settle_push (place_bet sample_player 101).2
        sample_player.next_bet_id).2.chips_cents = sample_player.chips_cents ∧
    (settle_loss (place_bet sample_player 101).2
        sample_player.next_bet_id).2.chips_cents = sample_player.chips_cents - 101 :=
  c2_settlement_deltas sample_player 101 (by decide)

/-- C2 counterexample.  Betting 101 cents from a 1000-cent balance and
settling a player blackjack leaves 1151 cents: the profit component
`⌊151.5⌋ = 151` is floored, so the final balance is neither
`pre-bet + 2.5 × b` with a half-up profit (`1000 + 101 + 152 = 1253`) nor
even the post-debit reading `899 + 101 + 152 = 1152`. -/
theorem c2_counterexample :
    (settle_blackjack (place_bet sample_player 101).2 1).2.chips_cents = 1151 ∧
    (1151 : Int) ≠ 1000 + 101 + 152 ∧ (1151 : Int) ≠ 899 + 101 + 152 := by
  decide

/-- Any successful settlement leaves the active-bet dictionary with the
settled bet id erased. -/
lemma settle_erases (s : PlayerState) (bet_id : Nat) (num den : Int)
    (r : Except String Int) (s1 : PlayerState)
    (hfirst : settle_win s bet_id num den = (r, s1) ∨ settle_push s bet_id = (r, s1) ∨
        settle_loss s bet_id = (r, s1))
    (hok : exc_ok r = true) :
    s1.active_bets = dict_erase s.active_bets bet_id := by
  cases hlk : dict_lookup s.active_bets bet_id with
  | none =>
    exfalso
    rcases hfirst with hf | hf | hf <;>
      · simp only [settle_win, settle_push, settle_loss, pop_bet, hlk,
          Prod.mk.injEq] at hf
        rw [← hf.1] at hok
        simp [exc_ok] at hok
  | some bet =>
    rcases hfirst with hf | hf | hf <;>
      · simp only [settle_win, settle_push, settle_loss, pop_bet, hlk,
          Prod.mk.injEq] at hf
        rw [← hf.2]

/-- C3.  A placed bet settles exactly once: once any settlement call
(`settle_win`, and hence `settle_blackjack = settle_win 3 2`, `settle_push`,
`settle_loss`) successfully consumes a bet id from a player whose bet ids
are unrepeated, the id is gone from the active bets, and a second settlement
call with the same id is rejected with `KeyError` and leaves the whole
player state — in particular the chip balance — unchanged. -/
theorem c3_settle_exactly_once (s : PlayerState) (bet_id : Nat) (num den : Int)
    (hnd : (s.active_bets.map Prod.fst).Nodup)
    (r : Except String Int) (s1 : PlayerState)
    (hfirst : settle_win s bet_id num den = (r, s1) ∨ settle_push s bet_id = (r, s1) ∨
        settle_loss s bet_id = (r, s1))
    (hok : exc_ok r = true) :
    dict_lookup s1.active_bets bet_id = none ∧
    (∀ num' den' : Int,
      exc_ok (settle_win s1 bet_id num' den').1 = false ∧
      (settle_win s1 bet_id num' den').2 = s1) ∧
    (exc_ok (settle_blackjack s1 bet_id).1 = false ∧ (settle_blackjack s1 bet_id).2 = s1) ∧
    (exc_ok (settle_push s1 bet_id).1 = false ∧ (settle_push s1 bet_id).2 = s1) ∧
    (exc_ok (settle_loss s1 bet_id).1 = false ∧ (settle_loss s1 bet_id).2 = s1) := by
  have herase := settle_erases s bet_id num den r s1 hfirst hok
  have hlk : dict_lookup s1.active_bets bet_id = none := by
    rw [herase]
    exact dict_lookup_erase s.active_bets bet_id hnd
  refine ⟨hlk, ?_, ?_, ?_, ?_⟩
  · intro num' den'
    simp [settle_win, pop_bet, hlk, exc_ok]
  · simp [settle_blackjack, settle_win, pop_bet, hlk, exc_ok]
  · simp [settle_push, pop_bet, hlk, exc_ok]
  · simp [settle_loss, pop_bet, hlk, exc_ok]

/-- The sample player right after placing a 100-cent bet. -/
def sample_with_bet : PlayerState :=
  { chips_cents := 900, min_bet_cents := 1, max_bet_cents := none,
    hands_played := 0, wins := 0, losses := 0, pushes := 0, net_cents := 0,
    next_bet_id := 2, active_bets := [(1, 100)] }

/-- The sample player after the 100-cent bet was settled as an even-money win. -/
def sample_after_win : PlayerState :=
  { chips_cents := 1100, min_bet_cents := 1, max_bet_cents := none,
    hands_played := 1, wins := 1, losses := 0, pushes := 0, net_cents := 100,
    next_bet_id := 2, active_bets := [] }

/-- C3 witness: settling the sample 100-cent bet as an even-money win and
then attempting any second settlement of bet id 1. -/
theorem c3_settle_exactly_once_witness :
    dict_lookup sample_after_win.active_bets 1 = none ∧
    (∀ num' den' : Int,
      exc_ok (settle_win sample_after_win 1 num' den').1 = false ∧
      (settle_win sample_after_win 1 num' den').2 = sample_after_win) ∧
    (exc_ok (settle_blackjack sample_after_win 1).1 = false ∧
      (settle_blackjack sample_after_win 1).2 = sample_after_win) ∧
    (exc_ok (settle_push sample_after_win 1).1 = false ∧
      (settle_push sample_after_win 1).2 = sample_after_win) ∧
    (exc_ok (settle_loss sample_after_win 1).1 = false ∧
      (settle_loss sample_after_win 1).2 = sample_after_win) :=
  c3_settle_exactly_once sample_with_bet 1 1 1 (by decide) (.ok 200) sample_after_win
    (Or.inl rfl) (by decide)

/-- C6.  An out-of-range bet amount — non-positive or exceeding the balance —
is rejected with a `ValueError` and no state change occurs: the chip balance
and active bets are untouched, and a retry behaves exactly as a fresh call. -/
theorem c6_invalid_bet_rejected (s : PlayerState) (a : Int)
    (h : a ≤ 0 ∨ s.chips_cents < a) :
    (∃ e, (place_bet s a).1 = .error e) ∧
    (place_bet s a).2 = s ∧
    (∀ a', place_bet ((place_bet s a).2) a' = place_bet s a') := by
  have hval : ∃ e, validate_bet_amount s a = .error e := by
    unfold validate_bet_amount
    by_cases h1 : a ≤ 0
    · exact ⟨_, by rw [if_pos h1]⟩
    · have h2 : s.chips_cents < a := h.resolve_left h1
      by_cases hmin : a < s.min_bet_cents
      · exact ⟨_, by rw [if_neg h1, if_pos hmin]⟩
      · by_cases hmax : over_max_bet s a
        · exact ⟨_, by rw [if_neg h1, if_neg hmin, if_pos hmax]⟩
        · exact ⟨_, by rw [if_neg h1, if_neg hmin, if_neg hmax, if_pos h2]⟩
  obtain ⟨e, he⟩ := hval
  have hpb : place_bet s a = (.error e, s) := by simp [place_bet, he]
  rw [hpb]
  exact ⟨⟨e, rfl⟩, rfl, fun a' => rfl⟩

/-- C6 witness: a −5-cent bet and a 5000-cent bet against the 1000-cent
sample player are both rejected without any state change. -/
theorem c6_invalid_bet_rejected_witness :
    ((∃ e, (place_bet sample_player (-5)).1 = .error e) ∧
      (place_bet sample_player (-5)).2 = sample_player ∧
      (∀ a', place_bet ((place_bet sample_player (-5)).2) a'
          = place_bet sample_player a')) ∧
    ((∃ e, (place_bet sample_player 5000).1 = .error e) ∧
      (place_bet sample_player 5000).2 = sample_player ∧
      (∀ a', place_bet ((place_bet sample_player 5000).2) a'
          = place_bet sample_player a')) :=
  ⟨c6_invalid_bet_rejected sample_player (-5) (Or.inl (by decide)),
   c6_invalid_bet_rejected sample_player 5000 (Or.inr (by decide))⟩

/-- C10.  Cancelling a just-placed bet is an exact inverse of placing it:
for any state whose active bet ids differ from the fresh id and any amount
accepted by `can_bet`, `cancel_bet` after `place_bet` restores the chip
balance exactly and leaves the active bets and every statistic
(`hands_played`, `wins`, `losses`, `pushes`, `net_cents`) unchanged. -/
theorem c10_cancel_inverse (s : PlayerState) (a : Int) (hv : can_bet s a = true)
    (hfresh : ∀ p ∈ s.active_bets, p.1 ≠ s.next_bet_id) :
    (place_bet s a).1 = .ok s.next_bet_id ∧
    (cancel_bet (place_bet s a).2 s.next_bet_id).2.chips_cents = s.chips_cents ∧
    (cancel_bet (place_bet s a).2 s.next_bet_id).2.active_bets = s.active_bets ∧
    (cancel_bet (place_bet s a).2 s.next_bet_id).2.hands_played = s.hands_played ∧
    (cancel_bet (place_bet s a).2 s.next_bet_id).2.wins = s.wins ∧
    (cancel_bet (place_bet s a).2 s.next_bet_id).2.losses = s.losses ∧
    (cancel_bet (place_bet s a).2 s.next_bet_id).2.pushes = s.pushes ∧
    (cancel_bet (place_bet s a).2 s.next_bet_id).2.net_cents = s.net_cents := by
  rw [place_bet_ok hv]
  have hins := dict_insert_fresh s.active_bets s.next_bet_id a hfresh
  have hlk : dict_lookup (dict_insert s.active_bets s.next_bet_id a) s.next_bet_id
      = some a := dict_lookup_insert s.active_bets s.next_bet_id a
  have her : dict_erase (dict_insert s.active_bets s.next_bet_id a) s.next_bet_id
      = s.active_bets := by
    rw [hins]
    exact dict_erase_append_fresh s.active_bets s.next_bet_id a hfresh
  simp only [cancel_bet, pop_bet, hlk]
  refine ⟨?_, ?_, ?_, ?_, ?_, ?_, ?_, ?_⟩ <;>
    first
    | exact her
    | trivial
    | omega

/-- C10 witness: placing and cancelling a 100-cent bet on the sample player. -/
theorem c10_cancel_inverse_witness :
    (place_bet sample_player 100).1 = .ok sample_player.next_bet_id ∧
    (cancel_bet (place_bet sample_player 100).2
        sample_player.next_bet_id).2.chips_cents = sample_player.chips_cents ∧
    (cancel_bet (place_bet sample_player 100).2
        sample_player.next_bet_id).2.active_bets = sample_player.active_bets ∧
    (cancel_bet (place_bet sample_player 100).2
        sample_player.next_bet_id).2.hands_played = sample_player.hands_played ∧
    (cancel_bet (place_bet sample_player 100).2
        sample_player.next_bet_id).2.wins = sample_player.wins ∧
    (cancel_bet (place_bet sample_player 100).2
        sample_player.next_bet_id).2.losses = sample_player.losses ∧
    (cancel_bet (place_bet sample_player 100).2
        sample_player.next_bet_id).2.pushes = sample_player.pushes ∧
    (cancel_bet (place_bet sample_player 100).2
        sample_player.next_bet_id).2.net_cents = sample_player.net_cents :=
  c10_cancel_inverse sample_player 100 (by decide)
    (by intro p hp; simp [sample_player] at hp)

-- ---------------------------------------------------------------------------
-- Shoe with discard management (src/deck.py)
-- ---------------------------------------------------------------------------

/-- The state of `Deck` in `src/deck.py`: draw pile (`_draw`, top at the
end), discard pile (`_discard`) and `_auto_reshuffle_threshold`. -/
structure ShoeDeck where
  draw_pile : List Card
  discard_pile : List Card
  auto_reshuffle_threshold : Nat
deriving DecidableEq, Repr

/-- `Deck.remaining` of `src/deck.py`. -/
def shoe_remaining (d : ShoeDeck) : Nat := d.draw_pile.length

/-- `Deck.needs_reshuffle` of `src/deck.py`:
`self.remaining < self._auto_reshuffle_threshold and bool(self._discard)`. -/
def needs_reshuffle (d : ShoeDeck) : Bool :=
  decide (shoe_remaining d < d.auto_reshuffle_threshold) && !d.discard_pile.isEmpty

/-- A shoe whose draw and discard piles are both exhausted, threshold 15. -/
def empty_shoe : ShoeDeck :=
  { draw_pile := [], discard_pile := [], auto_reshuffle_threshold := 15 }

/-- C8 counterexample.  A shoe with an empty draw pile, an empty discard
pile and threshold 15 has strictly fewer remaining cards than the threshold,
yet `needs_reshuffle()` returns false — the discard pile being nonempty is a
second condition the claim denies. -/
theorem c8_counterexample :
    needs_reshuffle empty_shoe = false ∧
    shoe_remaining empty_shoe < empty_shoe.auto_reshuffle_threshold := by
  decide

/-- C8 (amended).  `needs_reshuffle()` returns true if and only if the
number of remaining cards in the draw pile is strictly below the configured
threshold AND the discard pile is nonempty. -/
theorem c8_needs_reshuffle_iff (d : ShoeDeck) :
    needs_reshuffle d = true ↔
      (shoe_remaining d < d.auto_reshuffle_threshold ∧ d.discard_pile ≠ []) := by
  simp [needs_reshuffle, List.isEmpty_iff]

-- ---------------------------------------------------------------------------
-- Deck and Game of src/blackjack.py
-- ---------------------------------------------------------------------------

/-- A shuffling function standing for `random.shuffle`; theorems assume it
permutes its input, the defining property of a shuffle. -/
abbrev Shuffler := List Card → List Card

/-- The suit order of `SUITS` in `src/blackjack.py`. -/
def suits_list : List Suit := [.Hearts, .Diamonds, .Clubs, .Spades]

/-- The rank order of `RANKS` in `src/blackjack.py` (2 .. K, then A). -/
def ranks_list : List Rank :=
  [.r2, .r3, .r4, .r5, .r6, .r7, .r8, .r9, .r10, .J, .Q, .K, .A]

/-- `Deck._build_shoe` of `src/blackjack.py`: `num_decks` copies of the 52
cards, suits outer, ranks inner. -/
def build_shoe (num_decks : Nat) : List Card :=
  (List.range num_decks).flatMap
    (fun _ => suits_list.flatMap (fun s => ranks_list.map (fun r => ⟨r, s⟩)))

/-- The state of `Deck` in `src/blackjack.py`: `_draw_pile` (top at the
end), `_discard_pile`, `num_decks` and `reshuffle_threshold`. -/
structure Deck where
  num_decks : Nat
  reshuffle_threshold : Nat
  draw_pile : List Card
  discard_pile : List Card
deriving DecidableEq, Repr

/-- `Deck.cards_remaining` of `src/blackjack.py`. -/
def cards_remaining (d : Deck) : Nat := d.draw_pile.length

/-- `Deck._reshuffle_from_discards` of `src/blackjack.py`: a no-op when the
discard pile is empty, else move all discards into the draw pile and
shuffle. -/
def reshuffle_from_discards (sh : Shuffler) (d : Deck) : Deck :=
  if d.discard_pile.isEmpty then d
  else { d with draw_pile := sh (d.draw_pile ++ d.discard_pile), discard_pile := [] }

/-- `Deck.draw` of `src/blackjack.py` for a single card: if the draw pile is
empty, attempt to reshuffle the discards in; if the pile is still empty,
raise `RuntimeError`; otherwise pop from the end. -/
def deck_draw (sh : Shuffler) (d : Deck) : Except String (Card × Deck) :=
  let d1 := if d.draw_pile.isEmpty then reshuffle_from_discards sh d else d
  match d1.draw_pile.getLast? with
  | none => .error "Cannot draw a card: both draw pile and discard pile are empty."
  | some c => .ok (c, { d1 with draw_pile := d1.draw_pile.dropLast })

/-- `Deck.draw(n)` of `src/blackjack.py`: a loop of single draws, collecting
the drawn cards in draw order. -/
def deck_draw_many (sh : Shuffler) : Nat → Deck → Except String (List Card × Deck)
  | 0, d => .ok ([], d)
  | n + 1, d =>
      match deck_draw sh d with
      | .error e => .error e
      | .ok (c, d') =>
          match deck_draw_many sh n d' with
          | .error e => .error e
          | .ok (cs, d'') => .ok (c :: cs, d'')

/-- `Deck.discard` of `src/blackjack.py`: append cards to the discard pile. -/
def deck_discard (cards : List Card) (d : Deck) : Deck :=
  { d with discard_pile := d.discard_pile ++ cards }

/-- `Deck.reshuffle_if_needed` of `src/blackjack.py`: reshuffle the discards
in when the draw pile is below the threshold. -/
def reshuffle_if_needed (sh : Shuffler) (d : Deck) : Deck :=
  if cards_remaining d < d.reshuffle_threshold then reshuffle_from_discards sh d
  else d

/-- The per-round state of `Game` in `src/blackjack.py`: the deck and the
two hands (`self.player.hand.cards`, `self.dealer.hand.cards`). -/
structure GameState where
  deck : Deck
  player_hand : List Card
  dealer_hand : List Card
deriving DecidableEq, Repr

/-- A player decision in the interactive loop of `Game.player_turn`
(`(h)it` or `(s)tand`; other inputs re-prompt and are not modelled). -/
inductive PAction where
  | hit | stand
deriving DecidableEq, Repr

/-- `Game.deal_initial` of `src/blackjack.py`: two cards each, alternating
player first, four single draws in total. -/
def deal_initial (sh : Shuffler) (g : GameState) : Except String GameState :=
  match deck_draw sh g.deck with
  | .error e => .error e
  | .ok (p1, d1) =>
  match deck_draw sh d1 with
  | .error e => .error e
  | .ok (c1, d2) =>
  match deck_draw sh d2 with
  | .error e => .error e
  | .ok (p2, d3) =>
  match deck_draw sh d3 with
  | .error e => .error e
  | .ok (c2, d4) =>
      .ok { deck := d4,
            player_hand := g.player_hand ++ [p1, p2],
            dealer_hand := g.dealer_hand ++ [c1, c2] }

/-- `Game.player_turn` of `src/blackjack.py` (interactive text mode) driven
by a stream of decisions: while the hand is not bust, consume a decision;
stand ends the turn, hit draws a card and ends the turn if it busts.  An
exhausted stream is an input error. -/
def player_turn (sh : Shuffler) : List PAction → GameState →
    Except String (GameState × List PAction)
  | [], g =>
      if hand_is_bust g.player_hand then .ok (g, [])
      else .error "player input exhausted"
  | .stand :: rest, g =>
      if hand_is_bust g.player_hand then .ok (g, .stand :: rest)
      else .ok (g, rest)
  | .hit :: rest, g =>
      if hand_is_bust g.player_hand then .ok (g, .hit :: rest)
      else
        match deck_draw sh g.deck with
        | .error e => .error e
        | .ok (c, d') =>
            let g' : GameState :=
              { g with deck := d', player_hand := g.player_hand ++ [c] }
            if hand_is_bust g'.player_hand then .ok (g', rest)
            else player_turn sh rest g'

/-- The loop body of `Game.dealer_turn` of `src/blackjack.py`, with explicit
fuel: while the dealer total is below 17, draw; stop immediately on a bust.
The fuel only bounds the iteration count; `dealer_turn` supplies more fuel
than there are cards to draw, so the fuel branch is unreachable. -/
def dealer_turn_fuel (sh : Shuffler) : Nat → GameState → Except String GameState
  | 0, _ => .error "out of fuel"
  | f + 1, g =>
      if hand_value g.dealer_hand < 17 then
        match deck_draw sh g.deck with
        | .error e => .error e
        | .ok (c, d') =>
            let g' : GameState :=
              { g with deck := d', dealer_hand := g.dealer_hand ++ [c] }
            if hand_is_bust g'.dealer_hand then .ok g'
            else dealer_turn_fuel sh f g'
      else .ok g

/-- The total number of cards a deck owns across its two piles. -/
def deck_total (d : Deck) : Nat := d.draw_pile.length + d.discard_pile.length

/-- `Game.dealer_turn` of `src/blackjack.py`: each iteration consumes one
card from the deck, so `deck_total + 1` fuel always suffices. -/
def dealer_turn (sh : Shuffler) (g : GameState) : Except String GameState :=
  dealer_turn_fuel sh (deck_total g.deck + 1) g

/-- `Game.settle` of `src/blackjack.py`: bust rules first, then compare
totals. -/
def settle (g : GameState) : String :=
  if hand_is_bust g.player_hand then "Dealer wins (player busts)"
  else if hand_is_bust g.dealer_hand then "Player wins (dealer busts)"
  else if hand_value g.dealer_hand < hand_value g.player_hand then "Player wins"
  else if hand_value g.player_hand < hand_value g.dealer_hand then "Dealer wins"
  else "Push"

/-- `Game.cleanup_round` of `src/blackjack.py`: move both hands to the
discard pile (player first), then reshuffle if the threshold is reached. -/
def cleanup_round (sh : Shuffler) (g : GameState) : GameState :=
  let d1 := deck_discard g.player_hand g.deck
  let d2 := deck_discard g.dealer_hand d1
  { deck := reshuffle_if_needed sh d2, player_hand := [], dealer_hand := [] }

/-- `Game.play_round` of `src/blackjack.py` (text mode, interactive, driven
by a stream of player decisions): reshuffle if needed, deal, skip the
player's turn exactly when the player's own hand is a natural, run the
dealer's turn unless the player busted, settle, and clean up.  Returns the
result string, the cleaned-up state and the unconsumed decisions. -/
def play_round (sh : Shuffler) (g : GameState) (actions : List PAction) :
    Except String (String × GameState × List PAction) :=
  let g0 : GameState := { g with deck := reshuffle_if_needed sh g.deck }
  match deal_initial sh g0 with
  | .error e => .error e
  | .ok g1 =>
  match (if hand_is_blackjack g1.player_hand then .ok (g1, actions)
         else player_turn sh actions g1 :
         Except String (GameState × List PAction)) with
  | .error e => .error e
  | .ok (g2, acts2) =>
  match (if hand_is_bust g2.player_hand then .ok g2 else dealer_turn sh g2 :
         Except String GameState) with
  | .error e => .error e
  | .ok g3 =>
      .ok (settle g3, cleanup_round sh g3, acts2)

deriving instance DecidableEq for Except

/-- A dealer already at 17 or more never draws: the turn returns the state
unchanged. -/
lemma dealer_turn_fuel_stand (sh : Shuffler) (f : Nat) (g : GameState)
    (h : 17 ≤ hand_value g.dealer_hand) (hf : 0 < f) :
    dealer_turn_fuel sh f g = .ok g := by
  cases f with
  | zero => omega
  | succ f =>
    simp only [dealer_turn_fuel,
      if_neg (by omega : ¬ hand_value g.dealer_hand < 17)]

/-- Whenever the dealer loop returns normally, the final total is ≥ 17. -/
lemma dealer_turn_fuel_ge17 (sh : Shuffler) :
    ∀ f g st', dealer_turn_fuel sh f g = .ok st' →
      17 ≤ hand_value st'.dealer_hand := by
  intro f
  induction f with
  | zero =>
    intro g st' h
    exact absurd h (by simp [dealer_turn_fuel])
  | succ f ih =>
    intro g st' h
    rw [dealer_turn_fuel] at h
    split at h
    · split at h
      · exact absurd h (by simp)
      · dsimp only at h
        split at h
        · rename_i hbust
          simp only [Except.ok.injEq] at h
          subst h
          simp only [hand_is_bust, decide_eq_true_eq] at hbust
          dsimp only
          omega
        · exact ih _ _ h
    · simp only [Except.ok.injEq] at h
      subst h
      omega

/-- The dealer loop never removes cards from the dealer's hand. -/
lemma dealer_turn_fuel_mono (sh : Shuffler) :
    ∀ f g st', dealer_turn_fuel sh f g = .ok st' →
      g.dealer_hand.length ≤ st'.dealer_hand.length := by
  intro f
  induction f with
  | zero =>
    intro g st' h
    exact absurd h (by simp [dealer_turn_fuel])
  | succ f ih =>
    intro g st' h
    rw [dealer_turn_fuel] at h
    split at h
    · split at h
      · exact absurd h (by simp)
      · dsimp only at h
        split at h
        · simp only [Except.ok.injEq] at h
          subst h
          simp
        · have := ih _ _ h
          simp at this
          omega
    · simp only [Except.ok.injEq] at h
      subst h
      omega

/-- C4.  In `Game.dealer_turn`, the dealer draws if and only if the hand's
best total is at most 16: at 17 or more (soft or hard, including soft 17)
the turn immediately returns the state unchanged with no draw, and whenever
the turn returns normally the dealer's final total is at least 17 (a bust
total also exceeds 17), with at least one card drawn whenever the turn
started at 16 or less — so the dealer never draws after reaching 17. -/
theorem c4_dealer_turn (sh : Shuffler) (g st' : GameState) :
    (17 ≤ hand_value g.dealer_hand → dealer_turn sh g = .ok g) ∧
    (dealer_turn sh g = .ok st' →
      17 ≤ hand_value st'.dealer_hand ∧
      (hand_value g.dealer_hand ≤ 16 →
        g.dealer_hand.length < st'.dealer_hand.length)) := by
  constructor
  · intro h
    exact dealer_turn_fuel_stand sh _ g h (by omega)
  · intro h
    refine ⟨dealer_turn_fuel_ge17 sh _ g st' h, ?_⟩
    intro hv
    rw [dealer_turn, dealer_turn_fuel] at h
    rw [if_pos (by omega : hand_value g.dealer_hand < 17)] at h
    split at h
    · exact absurd h (by simp)
    · rename_i p hd
      dsimp only at h
      split at h
      · simp only [Except.ok.injEq] at h
        subst h
        simp
      · have := dealer_turn_fuel_mono sh _ _ _ h
        simp at this
        omega

/-- The identity shuffler, for concrete witnesses (a legal shuffle outcome). -/
def sh_id : Shuffler := fun l => l

/-- A game state whose dealer holds a soft 17 (A♠, 6♠). -/
def c4_soft17 : GameState :=
  { deck := { num_decks := 1, reshuffle_threshold := 15,
              draw_pile := [], discard_pile := [] },
    player_hand := [],
    dealer_hand := [⟨.A, .Spades⟩, ⟨.r6, .Spades⟩] }

/-- A game state whose dealer holds 16 (K♠, 6♠) with an ace on top of the
draw pile. -/
def c4_hit_start : GameState :=
  { deck := { num_decks := 1, reshuffle_threshold := 15,
              draw_pile := [⟨.A, .Spades⟩], discard_pile := [] },
    player_hand := [],
    dealer_hand := [⟨.K, .Spades⟩, ⟨.r6, .Spades⟩] }

/-- The state after the 16-value dealer of `c4_hit_start` draws the ace. -/
def c4_hit_end : GameState :=
  { deck := { num_decks := 1, reshuffle_threshold := 15,
              draw_pile := [], discard_pile := [] },
    player_hand := [],
    dealer_hand := [⟨.K, .Spades⟩, ⟨.r6, .Spades⟩, ⟨.A, .Spades⟩] }

/-- C4 witness: the soft-17 dealer stands without drawing, and the 16-value
dealer draws to 17 and stops. -/
theorem c4_dealer_turn_witness :
    dealer_turn sh_id c4_soft17 = .ok c4_soft17 ∧
    (17 ≤ hand_value c4_hit_end.dealer_hand ∧
      (hand_value c4_hit_start.dealer_hand ≤ 16 →
        c4_hit_start.dealer_hand.length < c4_hit_end.dealer_hand.length)) :=
  ⟨(c4_dealer_turn sh_id c4_soft17 c4_soft17).1 (by decide),
   (c4_dealer_turn sh_id c4_hit_start c4_hit_end).2 (by decide)⟩

/-- A freshly built, unshuffled single-deck shoe of `src/blackjack.py` with
the default threshold 15 and no discards. -/
def fresh_deck_1 : Deck :=
  { num_decks := 1, reshuffle_threshold := 15,
    draw_pile := build_shoe 1, discard_pile := [] }

/-- C7 counterexample.  Drawing 52 single cards from a fresh one-deck shoe
succeeds, but the 53rd draw raises `RuntimeError` instead of rebuilding:
with nothing in the discard pile there is no implicit rebuild from fresh
decks, so `draw()` does fail even though `deck_count ≥ 1`. -/
theorem c7_counterexample :
    exc_ok (deck_draw_many sh_id 52 fresh_deck_1) = true ∧
    deck_draw_many sh_id 53 fresh_deck_1 =
      .error "Cannot draw a card: both draw pile and discard pile are empty." := by
  decide

/-- C7 (amended).  `draw()` on an empty draw pile attempts exactly one
implicit reshuffle that moves the discard pile into the draw pile and
shuffles it; the draw then succeeds if and only if the discard pile was
nonempty.  With cards still in the draw pile a draw always succeeds, and
with both piles empty `draw()` raises `RuntimeError` — there is no rebuild
from fresh decks. -/
theorem c7_empty_draw_reclaims (sh : Shuffler) (hsh : ∀ l, (sh l).Perm l) (d : Deck) :
    (d.draw_pile = [] → d.discard_pile ≠ [] →
      ∃ c d', deck_draw sh d = .ok (c, d') ∧ d'.discard_pile = [] ∧
        d'.draw_pile.length + 1 = d.discard_pile.length) ∧
    (d.draw_pile = [] → d.discard_pile = [] →
      deck_draw sh d =
        .error "Cannot draw a card: both draw pile and discard pile are empty.") ∧
    (d.draw_pile ≠ [] →
      ∃ c d', deck_draw sh d = .ok (c, d') ∧ d'.discard_pile = d.discard_pile ∧
        d'.draw_pile.length + 1 = d.draw_pile.length) := by
  refine ⟨?_, ?_, ?_⟩
  · intro hdr hdc
    have hne : ¬ d.discard_pile.isEmpty := by
      simpa [List.isEmpty_iff] using hdc
    have hres : reshuffle_from_discards sh d =
        { d with draw_pile := sh (d.draw_pile ++ d.discard_pile), discard_pile := [] } := by
      simp [reshuffle_from_discards, hne]
    have hlen : (sh (d.draw_pile ++ d.discard_pile)).length = d.discard_pile.length := by
      rw [(hsh (d.draw_pile ++ d.discard_pile)).length_eq]
      simp [hdr]
    have hpos : 0 < (sh (d.draw_pile ++ d.discard_pile)).length := by
      rw [hlen]
      exact List.length_pos.mpr hdc
    cases hl : (sh (d.draw_pile ++ d.discard_pile)).getLast? with
    | none =>
      exfalso
      rw [List.getLast?_eq_none_iff.mp hl] at hpos
      simp at hpos
    | some c =>
      refine ⟨c, { d with draw_pile := (sh (d.draw_pile ++ d.discard_pile)).dropLast, discard_pile := [] }, ?_, rfl, ?_⟩
      · simp only [hdr, List.nil_append] at hl hres
        simp [deck_draw, hdr, hres, hl]
      · simp only [List.length_dropLast]
        omega
  · intro hdr hdc
    have hres : reshuffle_from_discards sh d = d := by
      simp [reshuffle_from_discards, hdc]
    simp [deck_draw, hdr, hres]
  · intro hdr
    have hne : ¬ d.draw_pile.isEmpty := by
      simpa [List.isEmpty_iff] using hdr
    have hpos : 0 < d.draw_pile.length := List.length_pos.mpr hdr
    cases hl : d.draw_pile.getLast? with
    | none =>
      exfalso
      rw [List.getLast?_eq_none_iff.mp hl] at hpos
      simp at hpos
    | some c =>
      refine ⟨c, { d with draw_pile := d.draw_pile.dropLast }, ?_, rfl, ?_⟩
      · simp [deck_draw, hdr, hl]
      · simp only [List.length_dropLast]
        omega

/-- An empty draw pile over a one-card discard pile. -/
def c7_deck_empty_draw : Deck :=
  { num_decks := 1, reshuffle_threshold := 15,
    draw_pile := [], discard_pile := [⟨.r9, .Hearts⟩] }

/-- C7 witness: on an empty draw pile with one discarded card, the next
draw reclaims the discard and succeeds; on a fresh one-deck shoe a draw
succeeds directly. -/
theorem c7_empty_draw_reclaims_witness :
    (∃ c d', deck_draw sh_id c7_deck_empty_draw = .ok (c, d') ∧
      d'.discard_pile = [] ∧
      d'.draw_pile.length + 1 = c7_deck_empty_draw.discard_pile.length) ∧
    (∃ c d', deck_draw sh_id fresh_deck_1 = .ok (c, d') ∧
      d'.discard_pile = fresh_deck_1.discard_pile ∧
      d'.draw_pile.length + 1 = fresh_deck_1.draw_pile.length) :=
  ⟨(c7_empty_draw_reclaims sh_id (fun l => List.Perm.refl l) c7_deck_empty_draw).1
      rfl (by decide),
   (c7_empty_draw_reclaims sh_id (fun l => List.Perm.refl l) fresh_deck_1).2.2
      (by decide)⟩

/-- Total cards owned by a game state: both deck piles plus both hands. -/
def game_total (g : GameState) : Nat :=
  deck_total g.deck + g.player_hand.length + g.dealer_hand.length

/-- Reshuffling the discards in moves cards but never creates or destroys
them, and touches no configuration. -/
lemma reshuffle_from_discards_spec (sh : Shuffler) (hsh : ∀ l, (sh l).Perm l)
    (d : Deck) :
    deck_total (reshuffle_from_discards sh d) = deck_total d ∧
    (reshuffle_from_discards sh d).num_decks = d.num_decks ∧
    (reshuffle_from_discards sh d).reshuffle_threshold = d.reshuffle_threshold := by
  unfold reshuffle_from_discards
  split
  · exact ⟨rfl, rfl, rfl⟩
  · refine ⟨?_, rfl, rfl⟩
    simp [deck_total, (hsh _).length_eq]

/-- The conditional reshuffle conserves cards and configuration. -/
lemma reshuffle_if_needed_spec (sh : Shuffler) (hsh : ∀ l, (sh l).Perm l)
    (d : Deck) :
    deck_total (reshuffle_if_needed sh d) = deck_total d ∧
    (reshuffle_if_needed sh d).num_decks = d.num_decks ∧
    (reshuffle_if_needed sh d).reshuffle_threshold = d.reshuffle_threshold := by
  unfold reshuffle_if_needed
  split
  · exact reshuffle_from_discards_spec sh hsh d
  · exact ⟨rfl, rfl, rfl⟩

/-- A successful single draw removes exactly one card from the deck's piles
and touches no configuration. -/
lemma deck_draw_spec (sh : Shuffler) (hsh : ∀ l, (sh l).Perm l)
    {d : Deck} {c : Card} {d' : Deck} (h : deck_draw sh d = .ok (c, d')) :
    deck_total d = deck_total d' + 1 ∧ d'.num_decks = d.num_decks ∧
    d'.reshuffle_threshold = d.reshuffle_threshold := by
  unfold deck_draw at h
  dsimp only at h
  set d1 := (if d.draw_pile.isEmpty = true then reshuffle_from_discards sh d else d)
    with hd1
  have hd1spec : deck_total d1 = deck_total d ∧ d1.num_decks = d.num_decks ∧
      d1.reshuffle_threshold = d.reshuffle_threshold := by
    rw [hd1]
    split
    · exact reshuffle_from_discards_spec sh hsh d
    · exact ⟨rfl, rfl, rfl⟩
  cases hl : d1.draw_pile.getLast? with
  | none =>
    rw [hl] at h
    simp at h
  | some c0 =>
    rw [hl] at h
    simp only [Except.ok.injEq, Prod.mk.injEq] at h
    obtain ⟨hc, hd'⟩ := h
    subst hd'
    have hne : d1.draw_pile ≠ [] := by
      intro he
      rw [he] at hl
      simp at hl
    have hlen : 0 < d1.draw_pile.length := List.length_pos.mpr hne
    obtain ⟨ht, hn, hr⟩ := hd1spec
    simp only [deck_total] at ht ⊢
    refine ⟨?_, hn, hr⟩
    simp only [List.length_dropLast]
    omega

/-- The initial deal conserves cards, touches no deck configuration, and
appends exactly two cards to each hand (player first). -/
lemma deal_initial_spec (sh : Shuffler) (hsh : ∀ l, (sh l).Perm l)
    {g g1 : GameState} (h : deal_initial sh g = .ok g1) :
    game_total g1 = game_total g ∧ g1.deck.num_decks = g.deck.num_decks ∧
    g1.deck.reshuffle_threshold = g.deck.reshuffle_threshold ∧
    ∃ p1 p2 c1 c2, g1.player_hand = g.player_hand ++ [p1, p2] ∧
      g1.dealer_hand = g.dealer_hand ++ [c1, c2] := by
  unfold deal_initial at h
  split at h
  · exact absurd h (by simp)
  · rename_i p1 d1 hd1
    split at h
    · exact absurd h (by simp)
    · rename_i c1 d2 hd2
      split at h
      · exact absurd h (by simp)
      · rename_i p2 d3 hd3
        split at h
        · exact absurd h (by simp)
        · rename_i c2 d4 hd4
          simp only [Except.ok.injEq] at h
          subst h
          obtain ⟨t1, n1, r1⟩ := deck_draw_spec sh hsh hd1
          obtain ⟨t2, n2, r2⟩ := deck_draw_spec sh hsh hd2
          obtain ⟨t3, n3, r3⟩ := deck_draw_spec sh hsh hd3
          obtain ⟨t4, n4, r4⟩ := deck_draw_spec sh hsh hd4
          refine ⟨?_, ?_, ?_, p1, p2, c1, c2, rfl, rfl⟩
          · simp only [game_total, deck_total, List.length_append,
              List.length_cons, List.length_nil] at *
            omega
          · dsimp only
            omega
          · dsimp only
            omega

/-- The player's turn conserves cards: every card that leaves the deck
enters the player's hand.  The dealer's hand and the deck configuration are
untouched. -/
lemma player_turn_cons (sh : Shuffler) (hsh : ∀ l, (sh l).Perm l) :
    ∀ (actions : List PAction) (g g' : GameState) (rest : List PAction),
      player_turn sh actions g = .ok (g', rest) →
      game_total g' = game_total g ∧ g'.deck.num_decks = g.deck.num_decks ∧
      g'.deck.reshuffle_threshold = g.deck.reshuffle_threshold ∧
      g'.dealer_hand = g.dealer_hand := by
  intro actions
  induction actions with
  | nil =>
    intro g g' rest h
    rw [player_turn] at h
    split at h
    · simp only [Except.ok.injEq, Prod.mk.injEq] at h
      obtain ⟨h1, h2⟩ := h
      subst h1
      exact ⟨rfl, rfl, rfl, rfl⟩
    · exact absurd h (by simp)
  | cons a rest' ih =>
    intro g g' rest h
    cases a with
    | stand =>
      rw [player_turn] at h
      split at h <;>
      · simp only [Except.ok.injEq, Prod.mk.injEq] at h
        obtain ⟨h1, h2⟩ := h
        subst h1
        exact ⟨rfl, rfl, rfl, rfl⟩
    | hit =>
      rw [player_turn] at h
      split at h
      · simp only [Except.ok.injEq, Prod.mk.injEq] at h
        obtain ⟨h1, h2⟩ := h
        subst h1
        exact ⟨rfl, rfl, rfl, rfl⟩
      · split at h
        · exact absurd h (by simp)
        · rename_i c d' hd
          dsimp only at h
          obtain ⟨ht, hn, hr⟩ := deck_draw_spec sh hsh hd
          split at h
          · simp only [Except.ok.injEq, Prod.mk.injEq] at h
            obtain ⟨h1, h2⟩ := h
            subst h1
            refine ⟨?_, hn, hr, rfl⟩
            simp only [game_total, List.length_append, List.length_cons,
              List.length_nil]
            omega
          · obtain ⟨ht', hn', hr', hdl⟩ := ih _ _ _ h
            dsimp only at ht' hn' hr' hdl
            refine ⟨?_, hn'.trans hn, hr'.trans hr, hdl⟩
            rw [ht']
            simp only [game_total, List.length_append, List.length_cons,
              List.length_nil]
            omega

/-- The dealer's loop conserves cards: every card that leaves the deck
enters the dealer's hand.  The player's hand and the deck configuration are
untouched. -/
lemma dealer_turn_fuel_cons (sh : Shuffler) (hsh : ∀ l, (sh l).Perm l) :
    ∀ (f : Nat) (g g' : GameState), dealer_turn_fuel sh f g = .ok g' →
      game_total g' = game_total g ∧ g'.deck.num_decks = g.deck.num_decks ∧
      g'.deck.reshuffle_threshold = g.deck.reshuffle_threshold ∧
      g'.player_hand = g.player_hand := by
  intro f
  induction f with
  | zero =>
    intro g g' h
    exact absurd h (by simp [dealer_turn_fuel])
  | succ f ih =>
    intro g g' h
    rw [dealer_turn_fuel] at h
    split at h
    · split at h
      · exact absurd h (by simp)
      · rename_i c d' hd
        dsimp only at h
        obtain ⟨ht, hn, hr⟩ := deck_draw_spec sh hsh hd
        split at h
        · simp only [Except.ok.injEq] at h
          subst h
          refine ⟨?_, hn, hr, rfl⟩
          simp only [game_total, List.length_append, List.length_cons,
            List.length_nil]
          omega
        · obtain ⟨ht', hn', hr', hpl⟩ := ih _ _ h
          dsimp only at ht' hn' hr' hpl
          refine ⟨?_, hn'.trans hn, hr'.trans hr, hpl⟩
          rw [ht']
          simp only [game_total, List.length_append, List.length_cons,
            List.length_nil]
          omega
    · simp only [Except.ok.injEq] at h
      subst h
      exact ⟨rfl, rfl, rfl, rfl⟩

/-- `cleanup_round` empties both hands into the discard pile: the deck then
owns every card of the round and the hands are empty. -/
lemma cleanup_round_spec (sh : Shuffler) (hsh : ∀ l, (sh l).Perm l)
    (g : GameState) :
    (cleanup_round sh g).player_hand = [] ∧
    (cleanup_round sh g).dealer_hand = [] ∧
    deck_total (cleanup_round sh g).deck = game_total g ∧
    (cleanup_round sh g).deck.num_decks = g.deck.num_decks := by
  unfold cleanup_round deck_discard
  dsimp only
  obtain ⟨ht, hn, hr⟩ := reshuffle_if_needed_spec sh hsh
    { g.deck with discard_pile := g.deck.discard_pile ++ g.player_hand ++ g.dealer_hand }
  refine ⟨rfl, rfl, ?_, ?_⟩
  · rw [ht]
    simp only [deck_total, game_total, List.length_append]
    omega
  · rw [hn]

/-- A built shoe holds exactly `52 * num_decks` cards. -/
lemma build_shoe_length (n : Nat) : (build_shoe n).length = 52 * n := by
  have h52 : (suits_list.flatMap
      (fun s => ranks_list.map (fun r => (⟨r, s⟩ : Card)))).length = 52 := by
    decide
  induction n with
  | zero => rfl
  | succ n ih =>
    unfold build_shoe at ih ⊢
    rw [List.range_succ, List.flatMap_append, List.length_append, ih,
      List.flatMap_cons, List.flatMap_nil, List.append_nil, h52]
    omega

/-- C9.  Card conservation across a round: starting a round with empty
hands and the full `52 × deck_count` complement in the deck's two piles,
a successful `play_round` (which moves cards to the hands and back via
`cleanup_round`) ends with both hands empty and the draw and discard piles
again holding exactly `52 × deck_count` cards, with the deck count
unchanged; the reshuffles performed never create or destroy cards, and a
freshly built shoe starts with exactly `52 × deck_count` cards. -/
theorem c9_card_conservation (sh : Shuffler) (hsh : ∀ l, (sh l).Perm l)
    (g : GameState) (actions : List PAction) (res : String) (g' : GameState)
    (rest : List PAction)
    (hp : g.player_hand = []) (hd : g.dealer_hand = [])
    (htot : deck_total g.deck = 52 * g.deck.num_decks)
    (h : play_round sh g actions = .ok (res, g', rest)) :
    g'.player_hand = [] ∧ g'.dealer_hand = [] ∧
    deck_total g'.deck = 52 * g'.deck.num_decks ∧
    g'.deck.num_decks = g.deck.num_decks ∧
    (∀ dk : Deck, deck_total (reshuffle_from_discards sh dk) = deck_total dk) ∧
    (build_shoe g.deck.num_decks).length = 52 * g.deck.num_decks := by
  unfold play_round at h
  dsimp only at h
  split at h
  · exact absurd h (by simp)
  · rename_i g1 hdeal
    split at h
    · exact absurd h (by simp)
    · rename_i g2 acts2 hplayer
      split at h
      · exact absurd h (by simp)
      · rename_i g3 hdealer
        simp only [Except.ok.injEq, Prod.mk.injEq] at h
        obtain ⟨hres, hg', hrest⟩ := h
        subst hg'
        obtain ⟨ht0, hn0, hr0⟩ := reshuffle_if_needed_spec sh hsh g.deck
        obtain ⟨ht1, hn1, hr1, _, _, _, _, hph, hdh⟩ := deal_initial_spec sh hsh hdeal
        have hstep2 : game_total g2 = game_total g1 ∧
            g2.deck.num_decks = g1.deck.num_decks := by
          split at hplayer
          · simp only [Except.ok.injEq, Prod.mk.injEq] at hplayer
            obtain ⟨h1, h2⟩ := hplayer
            subst h1
            exact ⟨rfl, rfl⟩
          · obtain ⟨a1, a2, a3, a4⟩ := player_turn_cons sh hsh _ _ _ _ hplayer
            exact ⟨a1, a2⟩
        have hstep3 : game_total g3 = game_total g2 ∧
            g3.deck.num_decks = g2.deck.num_decks := by
          split at hdealer
          · simp only [Except.ok.injEq] at hdealer
            subst hdealer
            exact ⟨rfl, rfl⟩
          · obtain ⟨a1, a2, a3, a4⟩ := dealer_turn_fuel_cons sh hsh _ _ _ hdealer
            exact ⟨a1, a2⟩
        obtain ⟨hcp, hcd, hct, hcn⟩ := cleanup_round_spec sh hsh g3
        have hntot : game_total g1 = deck_total g.deck := by
          rw [ht1]
          simp only [game_total, hp, hd, List.length_nil]
          omega
        have hnum : g3.deck.num_decks = g.deck.num_decks := by
          rw [hstep3.2, hstep2.2, hn1]
          simpa using hn0
        refine ⟨hcp, hcd, ?_, hcn.trans hnum, fun dk =>
          (reshuffle_from_discards_spec sh hsh dk).1, build_shoe_length _⟩
        rw [hct, hstep3.1, hstep2.1, hntot, hcn.trans hnum]
        exact htot

/-- Any card other than an ace is worth at most 10. -/
lemma card_value_non_ace (c : Card) (h : c.rank ≠ Rank.A) : c.value ≤ 10 := by
  cases hr : c.rank <;> simp [Card.value, rank_value, hr] at *

/-- A two-card hand can never bust: its best total is at most 21. -/
lemma two_card_value_le (c1 c2 : Card) : hand_value [c1, c2] ≤ 21 := by
  unfold hand_value
  obtain ⟨k, hk, heq, -, hbust⟩ := demote_aces_spec
    ([c1, c2].countP (fun c => c.rank = Rank.A)) (([c1, c2].map Card.value).sum)
  by_contra hgt
  push_neg at hgt
  have hka := hbust hgt
  rw [heq, hka] at hgt
  have hsum : ([c1, c2].map Card.value).sum = c1.value + c2.value := by simp
  have hb1 := card_value_bounds c1
  have hb2 := card_value_bounds c2
  by_cases hA1 : c1.rank = Rank.A <;> by_cases hA2 : c2.rank = Rank.A
  · have hcnt : [c1, c2].countP (fun c => c.rank = Rank.A) = 2 := by
      simp [List.countP_cons, hA1, hA2]
    rw [hcnt, hsum] at hgt
    omega
  · have hcnt : [c1, c2].countP (fun c => c.rank = Rank.A) = 1 := by
      simp [List.countP_cons, hA1, hA2]
    have hv2 : c2.value ≤ 10 := card_value_non_ace c2 hA2
    rw [hcnt, hsum] at hgt
    omega
  · have hcnt : [c1, c2].countP (fun c => c.rank = Rank.A) = 1 := by
      simp [List.countP_cons, hA1, hA2]
    have hv1 : c1.value ≤ 10 := card_value_non_ace c1 hA1
    rw [hcnt, hsum] at hgt
    omega
  · have hcnt : [c1, c2].countP (fun c => c.rank = Rank.A) = 0 := by
      simp [List.countP_cons, hA1, hA2]
    have hv1 : c1.value ≤ 10 := card_value_non_ace c1 hA1
    have hv2 : c2.value ≤ 10 := card_value_non_ace c2 hA2
    rw [hcnt, hsum] at hgt
    omega

/-- A five-card draw pile dealing player 10♠ 9♠ (19) and dealer A♠ K♠ (a
natural 21), with a 2♠ next; discard empty, so the pre-deal
`reshuffle_if_needed` is a no-op. -/
def c5_start : GameState :=
  { deck := { num_decks := 1, reshuffle_threshold := 15,
              draw_pile := [⟨.r2, .Spades⟩, ⟨.K, .Spades⟩, ⟨.r9, .Spades⟩,
                            ⟨.A, .Spades⟩, ⟨.r10, .Spades⟩],
              discard_pile := [] },
    player_hand := [], dealer_hand := [] }

/-- The state after the round of `c5_start` with actions hit-then-stand:
all five cards were used and returned, and the exhausted draw pile was
reshuffled from the discards during cleanup. -/
def c5_end : GameState :=
  { deck := { num_decks := 1, reshuffle_threshold := 15,
              draw_pile := [⟨.r10, .Spades⟩, ⟨.r9, .Spades⟩, ⟨.r2, .Spades⟩,
                            ⟨.A, .Spades⟩, ⟨.K, .Spades⟩],
              discard_pile := [] },
    player_hand := [], dealer_hand := [] }

/-- C5 counterexample.  From `c5_start` the initial deal gives the dealer
alone a natural (A♠ K♠ against the player's 10♠ 9♠), yet the round does not
end with `DealerWin` before the player acts: the player's turn runs,
consumes both supplied actions (hit to 21, then stand — the returned action
stream is empty), and the round settles as a `Push`, not a `DealerWin`. -/
theorem c5_counterexample :
    (deal_initial sh_id c5_start).toOption.map
        (fun g1 => (hand_is_blackjack g1.dealer_hand,
          hand_is_blackjack g1.player_hand)) = some (true, false) ∧
    play_round sh_id c5_start [PAction.hit, PAction.stand] =
      .ok ("Push", c5_end, []) ∧
    "Push" ≠ "Dealer wins" := by
  decide

/-- C5 (amended).  After the initial deal, only the player's natural is
checked (it merely skips the player's turn); the dealer's natural is never
specially evaluated, so the round does not end before the player acts.  When
the dealer holds a natural, the player (holding no natural) still plays:
standing immediately, the dealer turn stands at 21 without drawing and the
outcome is decided by the final total comparison, giving `Dealer wins` since
the player's two-card non-natural total is below 21. -/
theorem c5_dealer_natural_not_checked (sh : Shuffler) (hsh : ∀ l, (sh l).Perm l)
    (g g1 : GameState) (rest : List PAction)
    (hp : g.player_hand = []) (hd : g.dealer_hand = [])
    (hdeal : deal_initial sh
      { g with deck := reshuffle_if_needed sh g.deck } = .ok g1)
    (hnbj : hand_is_blackjack g1.player_hand = false)
    (hbj : hand_is_blackjack g1.dealer_hand = true) :
    play_round sh g (.stand :: rest) =
      .ok ("Dealer wins", cleanup_round sh g1, rest) := by
  obtain ⟨-, -, -, p1, p2, c1, c2, hph, hdh⟩ := deal_initial_spec sh hsh hdeal
  simp only [hp] at hph
  have hph2 : g1.player_hand = [p1, p2] := by
    rw [hph]
    rfl
  have hple : hand_value g1.player_hand ≤ 21 := by
    rw [hph2]
    exact two_card_value_le p1 p2
  have hplen : g1.player_hand.length = 2 := by
    rw [hph2]
    rfl
  have hpne : hand_value g1.player_hand ≠ 21 := by
    intro he
    rw [hand_is_blackjack, hplen, he] at hnbj
    simp at hnbj
  have hpnb : hand_is_bust g1.player_hand = false := by
    simp only [hand_is_bust, decide_eq_false_iff_not]
    omega
  have hdval : hand_value g1.dealer_hand = 21 := by
    simp only [hand_is_blackjack, Bool.and_eq_true, beq_iff_eq] at hbj
    exact hbj.2
  have hpt : player_turn sh (.stand :: rest) g1 = .ok (g1, rest) := by
    rw [player_turn, hpnb]
    simp
  have hdt : dealer_turn sh g1 = .ok g1 :=
    dealer_turn_fuel_stand sh _ g1 (by omega) (by omega)
  have hst : settle g1 = "Dealer wins" := by
    unfold settle
    rw [hpnb, if_neg (by simp)]
    rw [if_neg (by simp [hand_is_bust, hdval])]
    rw [if_neg (by omega : ¬ hand_value g1.dealer_hand < hand_value g1.player_hand)]
    rw [if_pos (by omega : hand_value g1.player_hand < hand_value g1.dealer_hand)]
  unfold play_round
  dsimp only
  rw [hdeal]
  dsimp only
  simp only [hnbj, Bool.false_eq_true, if_false]
  rw [hpt]
  dsimp only
  simp only [hpnb, Bool.false_eq_true, if_false]
  rw [hdt]
  dsimp only
  rw [hst]

/-- A four-card draw pile dealing player 10♠ 9♠ and dealer the natural
A♠ K♠. -/
def c5w_start : GameState :=
  { deck := { num_decks := 1, reshuffle_threshold := 15,
              draw_pile := [⟨.K, .Spades⟩, ⟨.r9, .Spades⟩,
                            ⟨.A, .Spades⟩, ⟨.r10, .Spades⟩],
              discard_pile := [] },
    player_hand := [], dealer_hand := [] }

/-- The dealt state of `c5w_start`: player 10♠ 9♠, dealer A♠ K♠. -/
def c5w_dealt : GameState :=
  { deck := { num_decks := 1, reshuffle_threshold := 15,
              draw_pile := [], discard_pile := [] },
    player_hand := [⟨.r10, .Spades⟩, ⟨.r9, .Spades⟩],
    dealer_hand := [⟨.A, .Spades⟩, ⟨.K, .Spades⟩] }

/-- C5 witness: against the dealer natural of `c5w_start`, the standing
player's round runs to the comparison-based `Dealer wins`. -/
theorem c5_dealer_natural_not_checked_witness :
    play_round sh_id c5w_start [PAction.stand] =
      .ok ("Dealer wins", cleanup_round sh_id c5w_dealt, []) :=
  c5_dealer_natural_not_checked sh_id (fun l => List.Perm.refl l)
    c5w_start c5w_dealt [] rfl rfl (by decide) (by decide) (by decide)

/-- A fresh one-deck game with empty hands. -/
def c9w_start : GameState :=
  { deck := fresh_deck_1, player_hand := [], dealer_hand := [] }

/-- The state after one round of `c9w_start` (the player is dealt the
natural A♠ Q♠, the dealer K♠ J♠): the four used cards sit in the discard
pile and the hands are empty again. -/
def c9w_end : GameState :=
  { deck := { num_decks := 1, reshuffle_threshold := 15,
              draw_pile := (((build_shoe 1).dropLast).dropLast).dropLast.dropLast,
              discard_pile := [⟨.A, .Spades⟩, ⟨.Q, .Spades⟩,
                               ⟨.K, .Spades⟩, ⟨.J, .Spades⟩] },
    player_hand := [], dealer_hand := [] }

/-- C9 witness: a concrete round on a fresh single deck ends with empty
hands and all 52 cards back across the two piles. -/
theorem c9_card_conservation_witness :
    c9w_end.player_hand = [] ∧ c9w_end.dealer_hand = [] ∧
    deck_total c9w_end.deck = 52 * c9w_end.deck.num_decks ∧
    c9w_end.deck.num_decks = c9w_start.deck.num_decks ∧
    (∀ dk : Deck, deck_total (reshuffle_from_discards sh_id dk) = deck_total dk) ∧
    (build_shoe c9w_start.deck.num_decks).length = 52 * c9w_start.deck.num_decks :=
  c9_card_conservation sh_id (fun l => List.Perm.refl l) c9w_start
    [PAction.stand] "Player wins" c9w_end [PAction.stand]
    rfl rfl (by decide) (by decide)

/-- The spec's multi-ace example hand A♠ 9♥ 9♣ (best total 19). -/
def c1w_hand : List Card :=
  [⟨.A, .Spades⟩, ⟨.r9, .Hearts⟩, ⟨.r9, .Clubs⟩]

/-- C1 witness: the hand-value specification instantiated at A♠ 9♥ 9♣. -/
theorem c1_best_total_spec_witness :
    (best_total (c1w_hand.map Card.rank)).1 = hand_value c1w_hand ∧
    low_sum c1w_hand ≤ hand_value c1w_hand ∧
    hand_value c1w_hand ≤ (c1w_hand.map Card.value).sum ∧
    (low_sum c1w_hand ≤ 21 →
      hand_value c1w_hand ≤ 21 ∧
      (∃ k ≤ c1w_hand.countP (fun c => c.rank = Rank.A),
        hand_value c1w_hand = (c1w_hand.map Card.value).sum - 10 * k) ∧
      (∀ j ≤ c1w_hand.countP (fun c => c.rank = Rank.A),
        (c1w_hand.map Card.value).sum - 10 * j ≤ 21 →
        (c1w_hand.map Card.value).sum - 10 * j ≤ hand_value c1w_hand)) ∧
    (21 < low_sum c1w_hand → hand_value c1w_hand = low_sum c1w_hand) :=
  c1_best_total_spec c1w_hand

/-- C8 witness: the amended reshuffle condition instantiated at the
exhausted shoe. -/
theorem c8_needs_reshuffle_iff_witness :
    needs_reshuffle empty_shoe = true ↔
      (shoe_remaining empty_shoe < empty_shoe.auto_reshuffle_threshold ∧
        empty_shoe.discard_pile ≠ []) :=
  c8_needs_reshuffle_iff empty_shoe
